import Mathlib

/-
Shallow embedding of src/Yupoo.py.

Python strings are modelled as `List Char`.  Python's Unicode `str.isalnum`
is modelled by `Char.isAlphanum` (ASCII letters and digits); every character
the claims exercise (ASCII letters, digits, punctuation, whitespace) is
classified identically by the two predicates.  Python's `str.strip` (remove
leading and trailing whitespace) is modelled with `Char.isWhitespace`.
-/

/-- Characters kept unchanged by `sanitize_folder_name` (Yupoo.py line 13):
`c.isalnum() or c in (' ', '_')`. -/
def allowedChar (c : Char) : Bool :=
  c.isAlphanum || c = ' ' || c = '_'

/-- Per-character action of Yupoo.py line 13: keep an allowed character,
replace anything else with an underscore. -/
def sanChar (c : Char) : Char :=
  if allowedChar c then c else '_'

/-- Whitespace predicate used to model Python `str.strip`. -/
def wsChar (c : Char) : Bool := c.isWhitespace

/-- Drop leading whitespace (left half of Python `strip`). -/
def lstripWs (l : List Char) : List Char := l.dropWhile wsChar

/-- Drop trailing whitespace (right half of Python `strip`). -/
def rstripWs (l : List Char) : List Char := (l.reverse.dropWhile wsChar).reverse

/-- Python `str.strip`: drop whitespace from both ends. -/
def pyStrip (l : List Char) : List Char := rstripWs (lstripWs l)

/-- Yupoo.py lines 11-13, `sanitize_folder_name`:
`"".join(c if c.isalnum() or c in (' ', '_') else "_" for c in name).strip()`. -/
def sanitize_folder_name (l : List Char) : List Char :=
  pyStrip (l.map sanChar)

lemma allowedChar_sanChar (c : Char) : allowedChar (sanChar c) = true := by
  unfold sanChar
  split
  · assumption
  · decide

lemma sanChar_of_allowed {c : Char} (h : allowedChar c = true) : sanChar c = c := by
  unfold sanChar
  simp [h]

lemma mem_of_mem_dropWhile {p : Char → Bool} {c : Char} :
    ∀ {l : List Char}, c ∈ l.dropWhile p → c ∈ l := by
  intro l
  induction l with
  | nil => intro h; exact h
  | cons a t ih =>
    intro h
    rw [List.dropWhile_cons] at h
    split at h
    · exact List.mem_cons_of_mem a (ih h)
    · exact h

lemma mem_of_mem_rstripWs {c : Char} {l : List Char} (h : c ∈ rstripWs l) : c ∈ l := by
  unfold rstripWs at h
  rw [List.mem_reverse] at h
  exact List.mem_reverse.mp (mem_of_mem_dropWhile h)

lemma mem_of_mem_pyStrip {c : Char} {l : List Char} (h : c ∈ pyStrip l) : c ∈ l :=
  mem_of_mem_dropWhile (mem_of_mem_rstripWs h)

lemma mem_sanitize_allowed {c : Char} {l : List Char}
    (h : c ∈ sanitize_folder_name l) : allowedChar c = true := by
  have hm : c ∈ l.map sanChar := mem_of_mem_pyStrip h
  rcases List.mem_map.mp hm with ⟨a, _, ha⟩
  rw [← ha]
  exact allowedChar_sanChar a

lemma dropWhile_idem (p : Char → Bool) (l : List Char) :
    (l.dropWhile p).dropWhile p = l.dropWhile p := by
  induction l with
  | nil => rfl
  | cons a t ih =>
    rw [List.dropWhile_cons]
    split
    · exact ih
    · rw [List.dropWhile_cons]
      simp_all

lemma length_dropWhile_le (p : Char → Bool) (l : List Char) :
    (l.dropWhile p).length ≤ l.length := by
  induction l with
  | nil => simp
  | cons a t ih =>
    rw [List.dropWhile_cons]
    split
    · exact Nat.le_succ_of_le ih
    · simp

lemma not_p_head_of_dropWhile_cons {p : Char → Bool} {a : Char} {l : List Char}
    (h : List.dropWhile p (a :: l) = a :: l) : p a = false := by
  by_contra hpa
  rw [Bool.not_eq_false] at hpa
  rw [List.dropWhile_cons, if_pos hpa] at h
  have hlen : (List.dropWhile p l).length ≤ l.length := length_dropWhile_le p l
  rw [h] at hlen
  simp at hlen

lemma rstripWs_append_exists (l : List Char) : ∃ d, l = rstripWs l ++ d := by
  refine ⟨(l.reverse.takeWhile wsChar).reverse, ?_⟩
  unfold rstripWs
  have h := List.takeWhile_append_dropWhile wsChar l.reverse
  calc l = l.reverse.reverse := (List.reverse_reverse l).symm
    _ = (List.takeWhile wsChar l.reverse ++ List.dropWhile wsChar l.reverse).reverse := by
        rw [h]
    _ = (List.dropWhile wsChar l.reverse).reverse ++ (List.takeWhile wsChar l.reverse).reverse := by
        rw [List.reverse_append]

lemma lstripWs_of_lstripped {l : List Char} (h : lstripWs l = l) :
    lstripWs (rstripWs l) = rstripWs l := by
  rcases rstripWs_append_exists l with ⟨d, hd⟩
  cases hr : rstripWs l with
  | nil => rfl
  | cons a t =>
    rw [hr] at hd
    unfold lstripWs at h ⊢
    have ha : wsChar a = false := by
      have h1 : List.dropWhile wsChar ((a :: t) ++ d) = (a :: t) ++ d := by
        rw [← hd]; exact h
      exact not_p_head_of_dropWhile_cons (l := t ++ d) h1
    rw [List.dropWhile_cons, if_neg (by simp [ha])]

lemma rstripWs_idem (l : List Char) : rstripWs (rstripWs l) = rstripWs l := by
  unfold rstripWs
  rw [List.reverse_reverse, dropWhile_idem]

lemma lstripWs_idem (l : List Char) : lstripWs (lstripWs l) = lstripWs l :=
  dropWhile_idem wsChar l

lemma pyStrip_idem (l : List Char) : pyStrip (pyStrip l) = pyStrip l := by
  unfold pyStrip
  rw [lstripWs_of_lstripped (lstripWs_idem l), rstripWs_idem]

lemma map_sanChar_of_allowed {l : List Char} (h : ∀ c ∈ l, allowedChar c = true) :
    l.map sanChar = l := by
  have : l.map sanChar = l.map id := by
    apply List.map_congr_left
    intro a ha
    simp [sanChar_of_allowed (h a ha)]
  rw [this, List.map_id]

/-- C5: the sanitize operation is idempotent — for every input string `x`,
`sanitize_folder_name (sanitize_folder_name x) = sanitize_folder_name x`. -/
theorem c5_sanitize_idempotent (l : List Char) :
    sanitize_folder_name (sanitize_folder_name l) = sanitize_folder_name l := by
  have h1 : (sanitize_folder_name l).map sanChar = sanitize_folder_name l :=
    map_sanChar_of_allowed (fun c hc => mem_sanitize_allowed hc)
  show pyStrip ((sanitize_folder_name l).map sanChar) = sanitize_folder_name l
  rw [h1]
  show pyStrip (pyStrip (l.map sanChar)) = pyStrip (l.map sanChar)
  exact pyStrip_idem _

lemma lstripWs_pyStrip (l : List Char) : lstripWs (pyStrip l) = pyStrip l :=
  lstripWs_of_lstripped (dropWhile_idem wsChar l)

lemma rstripWs_pyStrip (l : List Char) : rstripWs (pyStrip l) = pyStrip l :=
  rstripWs_idem (lstripWs l)

/-- C8: every character of a sanitized name is alphanumeric, a space, or an
underscore, and the sanitized name has no leading or trailing whitespace
(it is a fixed point of both whitespace-stripping operations). -/
theorem c8_sanitize_charset_invariant (l : List Char) :
    (∀ c ∈ sanitize_folder_name l, (c.isAlphanum || c = ' ' || c = '_') = true) ∧
    lstripWs (sanitize_folder_name l) = sanitize_folder_name l ∧
    rstripWs (sanitize_folder_name l) = sanitize_folder_name l := by
  refine ⟨fun c hc => mem_sanitize_allowed hc, ?_, ?_⟩
  · exact lstripWs_pyStrip (l.map sanChar)
  · exact rstripWs_pyStrip (l.map sanChar)

/-- C8 witness: the invariant evaluated on the concrete input "x !a". -/
theorem c8_sanitize_charset_invariant_witness :
    (('x'.isAlphanum || 'x' = ' ' || 'x' = '_') = true) ∧
    lstripWs (sanitize_folder_name "x !a".data) = sanitize_folder_name "x !a".data ∧
    rstripWs (sanitize_folder_name "x !a".data) = sanitize_folder_name "x !a".data :=
  ⟨(c8_sanitize_charset_invariant "x !a".data).1 'x' (by decide),
   (c8_sanitize_charset_invariant "x !a".data).2.1,
   (c8_sanitize_charset_invariant "x !a".data).2.2⟩

/-
Decimal rendering of page numbers: Python's f-string `f"{page}_{image_name}"`
renders `page` in decimal.  `digitsRevAux` computes the little-endian digit
list with structural fuel so that the kernel can evaluate it.
-/

/-- Little-endian decimal digits of `n`, valid whenever `n ≤ fuel`. -/
def digitsRevAux : Nat → Nat → List Nat
  | 0, _ => []
  | fuel + 1, n => if n = 0 then [] else n % 10 :: digitsRevAux fuel (n / 10)

/-- Decimal rendering of a natural number, as Python `str(n)` produces it. -/
def pyNatStr (n : Nat) : List Char :=
  if n = 0 then ['0'] else ((digitsRevAux n n).map Nat.digitChar).reverse

/-- Value of a little-endian digit list (left inverse of `digitsRevAux`). -/
def valRev : List Nat → Nat
  | [] => 0
  | d :: ds => d + 10 * valRev ds

lemma valRev_digitsRevAux : ∀ fuel n, n ≤ fuel → valRev (digitsRevAux fuel n) = n := by
  intro fuel
  induction fuel with
  | zero =>
    intro n hn
    have : n = 0 := Nat.le_zero.mp hn
    subst this
    rfl
  | succ f ih =>
    intro n hn
    by_cases h0 : n = 0
    · subst h0; simp [digitsRevAux, valRev]
    · have hlt : n / 10 < n := Nat.div_lt_self (Nat.pos_of_ne_zero h0) (by decide)
      have hle : n / 10 ≤ f := by omega
      simp only [digitsRevAux, if_neg h0, valRev]
      rw [ih (n / 10) hle]
      exact Nat.mod_add_div n 10

lemma digitsRevAux_lt_ten : ∀ fuel n d, d ∈ digitsRevAux fuel n → d < 10 := by
  intro fuel
  induction fuel with
  | zero => intro n d h; simp [digitsRevAux] at h
  | succ f ih =>
    intro n d h
    by_cases h0 : n = 0
    · subst h0; simp [digitsRevAux] at h
    · simp only [digitsRevAux, if_neg h0, List.mem_cons] at h
      rcases h with h | h
      · subst h; exact Nat.mod_lt n (by decide)
      · exact ih (n / 10) d h

/-- Inverse of `Nat.digitChar` on decimal digits. -/
def decChar (c : Char) : Nat := c.toNat - 48

lemma decChar_digitChar : ∀ d, d < 10 → decChar (Nat.digitChar d) = d := by decide

/-- Decode a decimal string back to its value. -/
def decStr (s : List Char) : Nat := valRev (s.reverse.map decChar)

lemma decStr_pyNatStr (n : Nat) : decStr (pyNatStr n) = n := by
  by_cases h0 : n = 0
  · subst h0; rfl
  · unfold pyNatStr decStr
    rw [if_neg h0, List.reverse_reverse, List.map_map]
    have hmap : (digitsRevAux n n).map (decChar ∘ Nat.digitChar) =
        (digitsRevAux n n).map id := by
      apply List.map_congr_left
      intro d hd
      exact decChar_digitChar d (digitsRevAux_lt_ten n n d hd)
    rw [hmap, List.map_id]
    exact valRev_digitsRevAux n n (Nat.le_refl n)

lemma pyNatStr_inj {m n : Nat} (h : pyNatStr m = pyNatStr n) : m = n := by
  have := congrArg decStr h
  rwa [decStr_pyNatStr, decStr_pyNatStr] at this

lemma digitChar_isDigit : ∀ d, d < 10 → (Nat.digitChar d).isDigit = true := by decide

lemma pyNatStr_all_digits (n : Nat) : ∀ c ∈ pyNatStr n, c.isDigit = true := by
  intro c hc
  unfold pyNatStr at hc
  by_cases h0 : n = 0
  · rw [if_pos h0] at hc
    simp at hc
    subst hc
    decide
  · rw [if_neg h0, List.mem_reverse] at hc
    rcases List.mem_map.mp hc with ⟨d, hd, hdc⟩
    rw [← hdc]
    exact digitChar_isDigit d (digitsRevAux_lt_ten n n d hd)

lemma pyNatStr_ne_nil (n : Nat) : pyNatStr n ≠ [] := by
  unfold pyNatStr
  by_cases h0 : n = 0
  · rw [if_pos h0]; simp
  · rw [if_neg h0]
    rcases Nat.exists_eq_succ_of_ne_zero h0 with ⟨k, hk⟩
    subst hk
    simp [digitsRevAux]

lemma isDigit_not_ws {c : Char} (h : c.isDigit = true) : c.isWhitespace = false := by
  by_contra hw
  rw [Bool.not_eq_false] at hw
  simp [Char.isWhitespace] at hw
  rcases hw with ((h1 | h1) | h1) | h1 <;> subst h1 <;> simp [Char.isDigit] at h

lemma isDigit_allowed {c : Char} (h : c.isDigit = true) : allowedChar c = true := by
  unfold allowedChar
  unfold Char.isAlphanum
  simp [h]

/-- Does `s` begin with the character sequence `pat`?  Models Python
`str.startswith`. -/
def beginsWith : List Char → List Char → Bool
  | [], _ => true
  | _ :: _, [] => false
  | c :: cs, d :: ds => c == d && beginsWith cs ds

/-- Model of `os.path.join(a, b)` for the paths this program builds:
an absolute second component replaces the first, otherwise the two are
joined with a single separator. -/
def pathJoin (a b : List Char) : List Char :=
  if a = [] then b
  else if beginsWith ['/'] b then b
  else if a.getLast? = some '/' then a ++ b
  else a ++ '/' :: b

/-- An image card as scanned on an album page (Yupoo.py lines 89-91): the
optional `data-origin-src` attribute of its `img` tag and the optional
`title` attribute of its `h3` tag. -/
structure Card where
  originSrc : Option (List Char)
  titleAttr : Option (List Char)
deriving DecidableEq

/-- File name built for an image card (Yupoo.py lines 100-101):
`sanitize_folder_name(f"{page}_{image_name}") + ".jpg"`. -/
def destName (page : Nat) (t : List Char) : List Char :=
  sanitize_folder_name (pyNatStr page ++ '_' :: t) ++ ".jpg".data

/-- Destination path of an image card (Yupoo.py line 102):
`os.path.join(album_folder, image_name)`. -/
def destPath (folder : List Char) (page : Nat) (t : List Char) : List Char :=
  pathJoin folder (destName page t)

/-- Yupoo.py lines 88-103: build the `(image_url, save_path)` pairs for one
album page.  Cards missing the source or title attribute are skipped;
scheme-relative URLs get `"https:"` prepended. -/
def imageDetails (page : Nat) (albumFolder : List Char) : List Card → List (List Char × List Char)
  | [] => []
  | card :: rest =>
    match card.originSrc, card.titleAttr with
    | some u, some t =>
      (if beginsWith ['/', '/'] u then "https:".data ++ u else u,
        destPath albumFolder page t) :: imageDetails page albumFolder rest
    | some _, none => imageDetails page albumFolder rest
    | none, _ => imageDetails page albumFolder rest

lemma dropWhile_append_cons_of_neg (p : Char → Bool) (b : Char) (bs : List Char)
    (h : p b = false) :
    ∀ as : List Char, List.dropWhile p (as ++ b :: bs) = List.dropWhile p as ++ b :: bs := by
  intro as
  induction as with
  | nil =>
    simp only [List.nil_append, List.dropWhile_nil]
    rw [List.dropWhile_cons, if_neg (by simp [h])]
  | cons a t ih =>
    rw [List.cons_append, List.dropWhile_cons, List.dropWhile_cons]
    split
    · exact ih
    · rw [List.cons_append]

lemma rstripWs_append_cons (xs ys : List Char) (b : Char) (h : wsChar b = false) :
    rstripWs (xs ++ b :: ys) = xs ++ b :: rstripWs ys := by
  unfold rstripWs
  rw [List.reverse_append, List.reverse_cons, List.append_assoc,
    List.singleton_append,
    dropWhile_append_cons_of_neg wsChar b xs.reverse h ys.reverse,
    List.reverse_append, List.reverse_cons, List.reverse_reverse,
    List.append_assoc, List.singleton_append]

lemma takeWhile_digits_append_cons (b : Char) (hb : b.isDigit = false) :
    ∀ xs ys : List Char, (∀ c ∈ xs, c.isDigit = true) →
      List.takeWhile Char.isDigit (xs ++ b :: ys) = xs := by
  intro xs
  induction xs with
  | nil =>
    intro ys _
    rw [List.nil_append, List.takeWhile_cons, if_neg (by simp [hb])]
  | cons a t ih =>
    intro ys hall
    rw [List.cons_append, List.takeWhile_cons,
      if_pos (by simp [hall a (List.mem_cons_self a t)])]
    rw [ih ys (fun c hc => hall c (List.mem_cons_of_mem a hc))]

/-- The page-prefixed file name decomposes: sanitization keeps the decimal
page prefix and the separating underscore untouched. -/
lemma sanitize_page_marked (p : Nat) (t : List Char) :
    sanitize_folder_name (pyNatStr p ++ '_' :: t) =
      pyNatStr p ++ '_' :: rstripWs (t.map sanChar) := by
  have hmap : (pyNatStr p ++ '_' :: t).map sanChar =
      pyNatStr p ++ '_' :: t.map sanChar := by
    rw [List.map_append,
      map_sanChar_of_allowed (fun c hc => isDigit_allowed (pyNatStr_all_digits p c hc))]
    rw [List.map_cons]
    have : sanChar '_' = '_' := by decide
    rw [this]
  show pyStrip ((pyNatStr p ++ '_' :: t).map sanChar) = _
  rw [hmap]
  rcases List.exists_cons_of_ne_nil (pyNatStr_ne_nil p) with ⟨d, P', hP⟩
  have hd : wsChar d = false := by
    have : d ∈ pyNatStr p := by rw [hP]; exact List.mem_cons_self d P'
    exact isDigit_not_ws (pyNatStr_all_digits p d this)
  unfold pyStrip
  have hls : lstripWs (pyNatStr p ++ '_' :: t.map sanChar) =
      pyNatStr p ++ '_' :: t.map sanChar := by
    rw [hP]
    unfold lstripWs
    rw [List.cons_append, List.dropWhile_cons, if_neg (by simp [hd])]
  rw [hls]
  exact rstripWs_append_cons (pyNatStr p) (t.map sanChar) '_' (by decide)

lemma destName_head (p : Nat) (t : List Char) :
    ∃ d rest, destName p t = d :: rest ∧ d.isDigit = true := by
  unfold destName
  rw [sanitize_page_marked]
  rcases List.exists_cons_of_ne_nil (pyNatStr_ne_nil p) with ⟨d, P', hP⟩
  refine ⟨d, P' ++ '_' :: rstripWs (t.map sanChar) ++ ".jpg".data, ?_, ?_⟩
  · rw [hP]
    simp [List.cons_append, List.append_assoc]
  · exact pyNatStr_all_digits p d (by rw [hP]; exact List.mem_cons_self d P')

lemma beginsWith_slash_destName (p : Nat) (t : List Char) :
    beginsWith ['/'] (destName p t) = false := by
  rcases destName_head p t with ⟨d, rest, he, hd⟩
  rw [he]
  show ('/' == d && beginsWith [] rest) = false
  have : ('/' == d) = false := by
    rw [beq_eq_false_iff_ne]
    intro h
    rw [← h] at hd
    simp at hd
  simp [this]

lemma pathJoin_inj {f x y : List Char} (hx : beginsWith ['/'] x = false)
    (hy : beginsWith ['/'] y = false) (h : pathJoin f x = pathJoin f y) : x = y := by
  unfold pathJoin at h
  have hx0 : ¬(beginsWith ['/'] x = true) := by simp [hx]
  have hy0 : ¬(beginsWith ['/'] y = true) := by simp [hy]
  by_cases hf : f = []
  · rwa [if_pos hf, if_pos hf] at h
  · rw [if_neg hf, if_neg hf, if_neg hx0, if_neg hy0] at h
    by_cases hl : f.getLast? = some '/'
    · rw [if_pos hl, if_pos hl] at h
      exact List.append_cancel_left h
    · rw [if_neg hl, if_neg hl] at h
      have h2 := List.append_cancel_left h
      injection h2

/-- C1 (amended): within one album, image cards taken from different page
numbers can never be assigned the same destination file path — the decimal
page-number prefix survives sanitization and determines the page. -/
theorem c1_destPath_unique_across_pages (folder t1 t2 : List Char) (p1 p2 : Nat)
    (h : p1 ≠ p2) : destPath folder p1 t1 ≠ destPath folder p2 t2 := by
  intro he
  apply h
  have h1 : destName p1 t1 = destName p2 t2 :=
    pathJoin_inj (beginsWith_slash_destName p1 t1) (beginsWith_slash_destName p2 t2) he
  unfold destName at h1
  have h2 : sanitize_folder_name (pyNatStr p1 ++ '_' :: t1) =
      sanitize_folder_name (pyNatStr p2 ++ '_' :: t2) := List.append_cancel_right h1
  rw [sanitize_page_marked, sanitize_page_marked] at h2
  have h3 := congrArg (List.takeWhile Char.isDigit) h2
  rw [takeWhile_digits_append_cons '_' (by decide) _ _ (pyNatStr_all_digits p1),
    takeWhile_digits_append_cons '_' (by decide) _ _ (pyNatStr_all_digits p2)] at h3
  exact pyNatStr_inj h3

/-- C1 witness: page 1 and page 2 with the same title get different paths. -/
theorem c1_destPath_unique_across_pages_witness :
    destPath "F".data 1 "A".data ≠ destPath "F".data 2 "A".data :=
  c1_destPath_unique_across_pages "F".data "A".data "A".data 1 2 (by decide)

/-- C1 counterexample: two distinct image cards on the same page (page 1)
with identical titles are assigned the same destination path, so the
destination paths of a run are not unique. -/
theorem c1_counterexample_same_page_collision :
    imageDetails 1 "F".data
        [⟨some "//h/a.jpg".data, some "A".data⟩,
         ⟨some "//h/b.jpg".data, some "A".data⟩] =
      [("https://h/a.jpg".data, "F/1_A.jpg".data),
       ("https://h/b.jpg".data, "F/1_A.jpg".data)] ∧
    ¬ ((imageDetails 1 "F".data
        [⟨some "//h/a.jpg".data, some "A".data⟩,
         ⟨some "//h/b.jpg".data, some "A".data⟩]).map Prod.snd).Nodup := by
  constructor
  · decide
  · decide

lemma https_prepend_eq {u : List Char} (h : beginsWith ['/', '/'] u = true) :
    "https:".data ++ u = "https://".data ++ u.drop 2 := by
  cases u with
  | nil => simp [beginsWith] at h
  | cons a u1 =>
    cases u1 with
    | nil => simp [beginsWith] at h
    | cons b u2 =>
      simp only [beginsWith, Bool.and_true, Bool.and_eq_true, beq_iff_eq] at h
      rcases h with ⟨ha, hb⟩
      rw [← ha, ← hb]
      rfl

/-- C7: the image records built for a page are exactly the cards that carry
both attributes; a scheme-relative source URL gets the `https` scheme
prepended (`//host/path` becomes `https://host/path`), any other URL is
used unchanged, and cards missing either attribute contribute nothing. -/
theorem c7_image_card_parsing (page : Nat) (folder : List Char) (cards : List Card) :
    imageDetails page folder cards =
      cards.filterMap (fun c =>
        match c.originSrc, c.titleAttr with
        | some u, some t =>
          some (if beginsWith ['/', '/'] u then "https://".data ++ u.drop 2 else u,
            destPath folder page t)
        | some _, none => none
        | none, _ => none) := by
  induction cards with
  | nil => rfl
  | cons card rest ih =>
    obtain ⟨os, ti⟩ := card
    cases os with
    | none =>
      simp only [imageDetails, List.filterMap_cons]
      exact ih
    | some u =>
      cases ti with
      | none =>
        simp only [imageDetails, List.filterMap_cons]
        exact ih
      | some t =>
        simp only [imageDetails, List.filterMap_cons]
        rw [ih]
        by_cases hb : beginsWith ['/', '/'] u = true
        · rw [if_pos hb, if_pos hb, https_prepend_eq hb]
        · rw [if_neg hb, if_neg hb]

/-
Download worker model (Yupoo.py lines 38-55, `download_image`).  One attempt
at `session.get` can fail before the response body is opened (connection
error or bad status, before line 47), fail while streaming chunks (after
`open(save_path, "wb")` has truncated the file and written some chunks), or
succeed.  Both exception kinds listed on line 52 are absorbed by the
`except` clause, so the function always returns.  The file at `save_path`
is modelled as `Option (List Nat)` (`none` = no file, `some cs` = file with
those chunks).
-/

/-- Outcome of one `session.get` attempt for an image. -/
inductive Att where
  | failEarly
  | failMid (written : List Nat)
  | succeedWith (chunks : List Nat)
deriving DecidableEq

/-- Did the attempt raise one of the caught exceptions? -/
def attFails : Att → Bool
  | .succeedWith _ => false
  | _ => true

/-- Observable events of `download_image`: a GET attempt, or the
`time.sleep(2)` executed after a failed attempt (Yupoo.py line 54). -/
inductive DEv where
  | getAttempt
  | sleepFor (n : Nat)
deriving DecidableEq

/-- Result of `download_image`: the file occupying `save_path` afterwards,
the event trace, and whether any attempt succeeded. -/
structure DlResult where
  file : Option (List Nat)
  events : List DEv
  succeeded : Bool
deriving DecidableEq

/-- The retry loop of Yupoo.py lines 43-54, with `remaining` attempts left;
`att i` is the behaviour of the network on attempt `i`. -/
def dlGo (att : Nat → Att) : Nat → Nat → Option (List Nat) → DlResult
  | _, 0, f => ⟨f, [], false⟩
  | i, r + 1, f =>
    match att i with
    | .succeedWith cs => ⟨some cs, [.getAttempt], true⟩
    | .failEarly =>
      let rest := dlGo att (i + 1) r f
      ⟨rest.file, .getAttempt :: .sleepFor 2 :: rest.events, rest.succeeded⟩
    | .failMid cs =>
      let rest := dlGo att (i + 1) r (some cs)
      ⟨rest.file, .getAttempt :: .sleepFor 2 :: rest.events, rest.succeeded⟩

/-- Yupoo.py lines 38-55: `retries = 3` attempts starting from the file
state `f0` at the destination path. -/
def download_image (att : Nat → Att) (f0 : Option (List Nat)) : DlResult :=
  dlGo att 0 3 f0

/-- GET attempts made during a run of the retry loop never exceed the
remaining-attempt budget. -/
lemma dlGo_attempt_count (att : Nat → Att) :
    ∀ r i f, ((dlGo att i r f).events.count DEv.getAttempt) ≤ r := by
  intro r
  induction r with
  | zero => intro i f; simp [dlGo]
  | succ r ih =>
    intro i f
    unfold dlGo
    cases att i with
    | succeedWith cs => simp [List.count_cons]
    | failEarly =>
      have hih := ih (i + 1) f
      simp [List.count_cons]
      omega
    | failMid cs =>
      have hih := ih (i + 1) (some cs)
      simp [List.count_cons]
      omega

/-- C4: at most 3 GET attempts are ever made, and when every attempt fails
the function performs exactly 3 attempts separated by `sleep 2`, returns
normally without success, and the per-item loop is exited (the item is
skipped). -/
theorem c4_retry_three_with_delay (att : Nat → Att) (f0 : Option (List Nat))
    (h : ∀ i, i < 3 → attFails (att i) = true) :
    ((download_image att f0).events.count DEv.getAttempt) ≤ 3 ∧
    (download_image att f0).events =
      [.getAttempt, .sleepFor 2, .getAttempt, .sleepFor 2, .getAttempt, .sleepFor 2] ∧
    (download_image att f0).succeeded = false := by
  have h0 := h 0 (by decide)
  have h1 := h 1 (by decide)
  have h2 := h 2 (by decide)
  refine ⟨dlGo_attempt_count att 3 0 f0, ?_⟩
  unfold download_image dlGo
  cases ha0 : att 0 with
  | succeedWith cs => rw [ha0] at h0; simp [attFails] at h0
  | failEarly =>
    unfold dlGo
    cases ha1 : att 1 with
    | succeedWith cs => rw [ha1] at h1; simp [attFails] at h1
    | failEarly =>
      unfold dlGo
      cases ha2 : att 2 with
      | succeedWith cs => rw [ha2] at h2; simp [attFails] at h2
      | failEarly => simp [dlGo]
      | failMid cs => simp [dlGo]
    | failMid cs =>
      unfold dlGo
      cases ha2 : att 2 with
      | succeedWith cs2 => rw [ha2] at h2; simp [attFails] at h2
      | failEarly => simp [dlGo]
      | failMid cs2 => simp [dlGo]
  | failMid cs =>
    unfold dlGo
    cases ha1 : att 1 with
    | succeedWith cs1 => rw [ha1] at h1; simp [attFails] at h1
    | failEarly =>
      unfold dlGo
      cases ha2 : att 2 with
      | succeedWith cs2 => rw [ha2] at h2; simp [attFails] at h2
      | failEarly => simp [dlGo]
      | failMid cs2 => simp [dlGo]
    | failMid cs1 =>
      unfold dlGo
      cases ha2 : att 2 with
      | succeedWith cs2 => rw [ha2] at h2; simp [attFails] at h2
      | failEarly => simp [dlGo]
      | failMid cs2 => simp [dlGo]

/-- C4 witness: all attempts fail early, instantiated concretely. -/
theorem c4_retry_three_with_delay_witness :
    ((download_image (fun _ => Att.failEarly) none).events.count DEv.getAttempt) ≤ 3 ∧
    (download_image (fun _ => Att.failEarly) none).events =
      [.getAttempt, .sleepFor 2, .getAttempt, .sleepFor 2, .getAttempt, .sleepFor 2] ∧
    (download_image (fun _ => Att.failEarly) none).succeeded = false :=
  c4_retry_three_with_delay (fun _ => Att.failEarly) none (fun _ _ => rfl)

/-- C2 (code evaluated at the failing input): when the first attempt dies
while streaming after writing chunk `7` and the remaining attempts fail
before opening the file, `download_image` returns normally — but the
truncated file `[7]` is left occupying the destination path. -/
theorem c2_partial_file_left_behind :
    download_image
        (fun i => if i = 0 then Att.failMid [7] else Att.failEarly) none =
      ⟨some [7],
        [.getAttempt, .sleepFor 2, .getAttempt, .sleepFor 2, .getAttempt, .sleepFor 2],
        false⟩ := by
  rfl

/-
Page parser model (Yupoo.py lines 24-36, `get_total_pages`).  The document
is abstracted to the parsed view BeautifulSoup provides: an optional
pagination form holding the `.string` values of its `span` elements.
-/

/-- A fetched document, reduced to its pagination control: `none` when the
form with class `pagination__jumpwrap` is absent, otherwise the list of
span strings inside it. -/
structure Doc where
  paginationForm : Option (List (List Char))
deriving DecidableEq

/-- Decimal value of a digit string, as Python `int` parses it. -/
def decimalVal (ds : List Char) : Nat :=
  ds.foldl (fun acc c => 10 * acc + (c.toNat - 48)) 0

/-- Match attempt of the regex `共(\d+)页` at a position right after a `共`:
greedily take digits, then require `页`. -/
def gongMatchHere (rest : List Char) : Option Nat :=
  let ds := rest.takeWhile Char.isDigit
  if ds = [] then none
  else if (rest.drop ds.length).head? = some '页' then some (decimalVal ds)
  else none

/-- Search semantics of `re.search(r"共(\d+)页", s)`: scan left to right for
a `共` followed by one or more digits and a `页`; `none` when the pattern
matches nowhere. -/
def gongSearch : List Char → Option Nat
  | [] => none
  | c :: rest =>
    if c = '共' then
      match gongMatchHere rest with
      | some n => some n
      | none => gongSearch rest
    else gongSearch rest

/-- Yupoo.py lines 24-36, `get_total_pages`: if the pagination form exists,
find the first span whose string matches `共\d+页`; extract the count from
that span's stripped string; default to 1 in every other case. -/
def get_total_pages (doc : Doc) : Nat :=
  match doc.paginationForm with
  | none => 1
  | some spans =>
    match spans.find? (fun s => (gongSearch s).isSome) with
    | none => 1
    | some s =>
      match gongSearch (pyStrip s) with
      | some n => n
      | none => 1

/-- C6: when the pagination control is absent, or present but none of its
span strings matches the `共N页` (\"N pages total\") marker, the parser
returns exactly 1; being a total function, it never fails. -/
theorem c6_pagination_defaults_to_one (doc : Doc)
    (h : doc.paginationForm = none ∨
      ∃ spans, doc.paginationForm = some spans ∧ ∀ s ∈ spans, gongSearch s = none) :
    get_total_pages doc = 1 := by
  rcases h with h | ⟨spans, hs, hall⟩
  · unfold get_total_pages
    rw [h]
  · unfold get_total_pages
    rw [hs]
    have hfind : spans.find? (fun s => (gongSearch s).isSome) = none := by
      rw [List.find?_eq_none]
      intro s hsmem
      simp [hall s hsmem]
    show (match spans.find? (fun s => (gongSearch s).isSome) with
      | none => 1
      | some s =>
        match gongSearch (pyStrip s) with
        | some n => n
        | none => 1) = 1
    rw [hfind]

/-- C6 witness: a document with no pagination form, and one whose only span
does not match the marker, both yield 1. -/
theorem c6_pagination_defaults_to_one_witness :
    get_total_pages ⟨none⟩ = 1 ∧ get_total_pages ⟨some ["hello".data]⟩ = 1 :=
  ⟨c6_pagination_defaults_to_one ⟨none⟩ (Or.inl rfl),
   c6_pagination_defaults_to_one ⟨some ["hello".data]⟩
     (Or.inr ⟨["hello".data], rfl, by decide⟩)⟩

/-
Album orchestration model (Yupoo.py lines 57-108,
`download_images_from_album`).  Network and parsing are abstracted to an
oracle: the metadata fetch of the album link either raises a caught
`RequestException` or yields the parsed document, and each page fetch
either raises (caught, `continue`) or yields the page's image cards.  The
function's filesystem and network side effects are recorded as an ordered
event trace.
-/

/-- Oracle for one album: outcome of the metadata fetch (line 63) and of
each per-page fetch (line 76). -/
structure AlbumOracle where
  meta : Except Unit Doc
  pageCards : Nat → Except Unit (List Card)

/-- Side effects of `download_images_from_album`, in program order. -/
inductive AEv where
  | mkdirEv (path : List Char)
  | fetchMetaEv
  | fetchPageEv (n : Nat)
  | dispatchEv (items : List (List Char × List Char))
deriving DecidableEq

/-- Yupoo.py lines 73-106: the page loop `for page in range(1, total+1)`.
A failed page fetch is logged and skipped; a page with no image cards is
skipped; otherwise the page's image details are handed to the worker
pool. -/
def albumPagesLoop (o : AlbumOracle) (albumFolder : List Char) (total : Nat) : List AEv :=
  (List.range' 1 total).flatMap (fun page =>
    AEv.fetchPageEv page ::
      match o.pageCards page with
      | .error _ => []
      | .ok cards =>
        if cards = [] then []
        else [AEv.dispatchEv (imageDetails page albumFolder cards)])

/-- Yupoo.py lines 57-108, `download_images_from_album`: create the album
folder (line 59), fetch the album metadata (line 63); on a caught fetch
failure return at once (line 67), otherwise run the page loop with the
page count parsed from the document. -/
def download_images_from_album (albumTitle baseFolder : List Char)
    (o : AlbumOracle) : List AEv :=
  let albumFolder := pathJoin baseFolder (sanitize_folder_name albumTitle)
  AEv.mkdirEv albumFolder :: AEv.fetchMetaEv ::
    match o.meta with
    | .error _ => []
    | .ok doc => albumPagesLoop o albumFolder (get_total_pages doc)

/-- C10: the album folder is always created before the album's first fetch
(the trace begins `mkdir, fetchMeta` for every oracle), and when the
metadata fetch fails the function returns with the empty directory as its
only filesystem effect — no page fetched, nothing dispatched. -/
theorem c10_folder_created_before_fetch (albumTitle baseFolder : List Char)
    (o : AlbumOracle) (e : Unit) (h : o.meta = .error e) :
    (∀ o2 : AlbumOracle, (download_images_from_album albumTitle baseFolder o2).take 2 =
      [AEv.mkdirEv (pathJoin baseFolder (sanitize_folder_name albumTitle)),
       AEv.fetchMetaEv]) ∧
    download_images_from_album albumTitle baseFolder o =
      [AEv.mkdirEv (pathJoin baseFolder (sanitize_folder_name albumTitle)),
       AEv.fetchMetaEv] := by
  constructor
  · intro o2
    rfl
  · unfold download_images_from_album
    rw [h]

/-- C10 witness: instantiated for a concrete album whose metadata fetch
fails. -/
theorem c10_folder_created_before_fetch_witness :
    (∀ o2 : AlbumOracle,
      (download_images_from_album "T".data "B".data o2).take 2 =
        [AEv.mkdirEv (pathJoin "B".data (sanitize_folder_name "T".data)),
         AEv.fetchMetaEv]) ∧
    download_images_from_album "T".data "B".data
        ⟨Except.error (), fun _ => Except.error ()⟩ =
      [AEv.mkdirEv (pathJoin "B".data (sanitize_folder_name "T".data)),
       AEv.fetchMetaEv] :=
  c10_folder_created_before_fetch "T".data "B".data
    ⟨Except.error (), fun _ => Except.error ()⟩ () rfl

/-
Main-run model (Yupoo.py lines 110-171, `download_images_from_yupoo_main`).
The input CSV is modelled as an optional table (`none` = FileNotFoundError,
line 116).  `csv.DictReader` gives every row the header's field names as
keys, so the guard `if "URL" in row` (line 115) holds for a row exactly
when the header contains "URL"; the except-KeyError branch (lines 119-121)
is consequently unreachable.  Per-seed crawling (lines 131-169) absorbs all
its fetch failures with try/except-continue and is modelled as returning
normally; the only uncaught exception on the seed path is the
AttributeError of line 129 when `re.match(r"https://[^/]+", base_url)`
returns `None`.
-/

/-- A parsed CSV file: header row and data rows. -/
structure Table where
  header : List (List Char)
  rows : List (List (List Char))
deriving DecidableEq

/-- The column name `"URL"` looked up in each row. -/
def urlKey : List Char := "URL".data

/-- Value of the `URL` column of a row (`row["URL"]`, guarded by
`"URL" in row` at the call site). -/
def colValue (header row : List (List Char)) : List Char :=
  row.getD (header.findIdx (fun h => h == urlKey)) []

/-- Yupoo.py lines 112-121: read the seed links.  `none` models the
FileNotFoundError path (report and return); otherwise
`links = [row["URL"] for row in reader if "URL" in row]`, which is the
whole URL column when the header has one and the empty list when it does
not — no KeyError can occur. -/
def loadLinks : Option Table → Option (List (List Char))
  | none => none
  | some t =>
    some (if t.header.any (fun h => h == urlKey)
      then t.rows.map (colValue t.header) else [])

/-- Uncaught Python exception on the main path. -/
inductive PyErr where
  | attributeError
deriving DecidableEq

/-- Yupoo.py line 129: `re.match(r"https://[^/]+", base_url)` — anchored at
the start of the string, `https://` followed by one or more non-slash
characters, greedily. -/
def baseDomain (s : List Char) : Option (List Char) :=
  if beginsWith "https://".data s then
    let host := (s.drop 8).takeWhile (fun c => !(c == '/'))
    if host = [] then none else some ("https://".data ++ host)
  else none

/-- Yupoo.py lines 127-169: the loop over seed links.  Each link is
stripped (line 128); if the base-domain match fails, `.group(0)` raises an
uncaught AttributeError that aborts the run; otherwise the seed's crawl
runs, absorbing its own failures, and the loop continues.  Returns the
stripped seeds that were crawled. -/
def seedLoop : List (List Char) → Except PyErr (List (List Char))
  | [] => .ok []
  | l :: ls =>
    match baseDomain (pyStrip l) with
    | none => .error .attributeError
    | some _ => (seedLoop ls).map (fun ps => pyStrip l :: ps)

/-- Observable outcome of a completed (non-raising) run. -/
structure MainResult where
  inputAborted : Bool
  crawledSeeds : List (List Char)
  successReported : Bool
deriving DecidableEq

/-- Yupoo.py lines 110-171, `download_images_from_yupoo_main`: load the
seeds (aborting with a report when the file is missing), crawl each seed,
and print the final success line (line 171) after the loop. -/
def download_images_from_yupoo_main (file : Option Table) : Except PyErr MainResult :=
  match loadLinks file with
  | none => .ok ⟨true, [], false⟩
  | some links => (seedLoop links).map (fun ps => ⟨false, ps, true⟩)

/-- C3 (code evaluated at the failing input): an existing input table whose
header has no `URL` column (here `Link`) is not treated as fatal — the run
does not abort, crawls nothing, and still reports successful completion. -/
theorem c3_missing_url_column_not_fatal :
    download_images_from_yupoo_main
        (some ⟨["Link".data], [["http://example.com".data]]⟩) =
      .ok ⟨false, [], true⟩ := by
  rfl

lemma seedLoop_error_of_bad_seed (l : List Char)
    (hpre : beginsWith "https://".data (pyStrip l) = false) :
    ∀ pre post : List (List Char),
      seedLoop (pre ++ l :: post) = .error .attributeError := by
  have hdom : baseDomain (pyStrip l) = none := by
    unfold baseDomain
    rw [if_neg (by simp [hpre])]
  intro pre
  induction pre with
  | nil =>
    intro post
    rw [List.nil_append]
    unfold seedLoop
    rw [hdom]
  | cons q qs ih =>
    intro post
    rw [List.cons_append]
    unfold seedLoop
    cases hq : baseDomain (pyStrip q) with
    | none => rfl
    | some d =>
      rw [ih post]
      rfl

/-- C9 (amended): for every seed URL that, after stripping surrounding
whitespace, does not start with `https://`, the base-domain regex yields no
match and the run raises an uncaught AttributeError, aborting the whole
run. -/
theorem c9_non_https_seed_aborts_run (t : Table) (links : List (List Char))
    (l : List Char) (hload : loadLinks (some t) = some links) (hmem : l ∈ links)
    (hpre : beginsWith "https://".data (pyStrip l) = false) :
    download_images_from_yupoo_main (some t) = .error .attributeError := by
  unfold download_images_from_yupoo_main
  rw [hload]
  rcases List.append_of_mem hmem with ⟨pre, post, hsplit⟩
  show Except.map (fun ps => MainResult.mk false ps true) (seedLoop links) =
    Except.error PyErr.attributeError
  rw [hsplit, seedLoop_error_of_bad_seed l hpre pre post]
  rfl

/-- C9 witness: a run whose single seed is `http://x` aborts with an
uncaught AttributeError. -/
theorem c9_non_https_seed_aborts_run_witness :
    download_images_from_yupoo_main
        (some ⟨["URL".data], [["http://x".data]]⟩) =
      .error .attributeError :=
  c9_non_https_seed_aborts_run ⟨["URL".data], [["http://x".data]]⟩
    [["http://x".data].getD 0 []] "http://x".data (by decide) (by decide) (by decide)

/-- C9 counterexample: the seed `" https://a.b"` does not start with
`https://`, yet the run does not raise — the URL is stripped before the
regex match, so the seed is crawled and the run completes. -/
theorem c9_counterexample_padded_https_seed :
    beginsWith "https://".data " https://a.b".data = false ∧
    download_images_from_yupoo_main
        (some ⟨["URL".data], [[" https://a.b".data]]⟩) =
      .ok ⟨false, ["https://a.b".data], true⟩ := by
  constructor
  · decide
  · rfl
